import Mathlib

/-!
# Shallow embedding of the orjson encoder (`src/encode.rs`)

This file embeds the recursive classify-and-serialize engine of the
encoder: the value classifier `pyobject_to_obtype`, the per-value
serializer `SerializePyObject.serialize`, and the top-level entry point
`serialize`.  Python values are modelled as the inductive tree `PyValue`;
the two `u8` counters (`recursion`, `default_calls`) are modelled as
`Fin 256`, whose addition has the wrap-around semantics of a release-mode
`u8`.  Errors are modelled by the inductive `EncodeError`, with
`errMsg` reproducing the literal message strings of the source.
-/

namespace Orjson

/-- `const STRICT_INT_MIN: i64 = -9007199254740991;` (encode.rs line 17). -/
def STRICT_INT_MIN : Int := -9007199254740991

/-- `const STRICT_INT_MAX: i64 = 9007199254740991;` (encode.rs line 18). -/
def STRICT_INT_MAX : Int := 9007199254740991

/-- `const RECURSION_LIMIT: u8 = 255;` (encode.rs line 20). -/
def RECURSION_LIMIT : Fin 256 := 255

/-- `pub const STRICT_INTEGER: u8 = 1;` (encode.rs line 22). -/
def STRICT_INTEGER : Nat := 1

/-- `pub const SERIALIZE_DATACLASS: u8 = 1 << 4;` (encode.rs line 23). -/
def SERIALIZE_DATACLASS : Nat := 1 <<< 4

/-- `pub const SERIALIZE_UUID: u8 = 1 << 5;` (encode.rs line 24). -/
def SERIALIZE_UUID : Nat := 1 <<< 5

/-- Smallest value representable in a signed 64-bit integer
(`PyLong_AsLongLong` fails below it). -/
def I64_MIN : Int := -(2 ^ 63)

/-- Largest value representable in a signed 64-bit integer
(`PyLong_AsLongLong` fails above it). -/
def I64_MAX : Int := 2 ^ 63 - 1

/-- The host type identity (`ob_type` pointer) of a Python value:
identity comparison of these tags models pointer comparison against the
interned type objects `STR_TYPE`, `INT_TYPE`, ... of `typeref`. -/
inductive TypeTag where
  | strT
  | intT
  | listT
  | dictT
  | boolT
  | noneT
  | floatT
  | tupleT
  | datetimeT
  | dateT
  | timeT
  | uuidT
  | otherT (tp_name : String)
deriving DecidableEq

/-- A Python value graph (acyclic), carrying exactly the observations the
encoder makes of a host object:
* `str valid s` — a `str` object; `valid = false` models a string whose
  UTF-8 read fails (`read_utf8_from_str` returns null);
* `int val` — an `int` object with unbounded value `val`;
* `bool b` — a `bool` object; `b` models identity with the `TRUE` singleton;
* `float bits` — a `float` object (payload opaque: no claim inspects it);
* `datetime libOk rendered` — a `datetime.datetime`; `libOk = false`
  models a tzinfo from an unsupported library, `rendered` the buffer
  `write_datetime` would produce otherwise;
* `time hastzinfo h m s us` — a `datetime.time` with its fields;
* `uuid rendered` — a `uuid.UUID`, `rendered` the buffer of `write_uuid`;
* `obj tp_name fields` — an object of any other type; `fields = some fs`
  models the presence of the `__dataclass_fields__` attribute with the
  ordered field-name/attribute-value pairs `fs`. -/
inductive PyValue where
  | str (valid : Bool) (s : String)
  | int (val : Int)
  | list (items : List PyValue)
  | dict (entries : List (PyValue × PyValue))
  | bool (b : Bool)
  | none
  | float (bits : Nat)
  | tuple (items : List PyValue)
  | datetime (libOk : Bool) (rendered : String)
  | date (rendered : String)
  | time (hastzinfo : Bool) (hour minute second microsecond : Nat)
  | uuid (rendered : String)
  | obj (tp_name : String) (dataclassFields : Option (List (PyValue × PyValue)))

/-- `(*obj).ob_type`: the type identity of a value. -/
def ob_type : PyValue → TypeTag
  | .str .. => .strT
  | .int .. => .intT
  | .list .. => .listT
  | .dict .. => .dictT
  | .bool .. => .boolT
  | .none => .noneT
  | .float .. => .floatT
  | .tuple .. => .tupleT
  | .datetime .. => .datetimeT
  | .date .. => .dateT
  | .time .. => .timeT
  | .uuid .. => .uuidT
  | .obj name _ => .otherT name

/-- `obj_name!`: the `tp_name` of a type tag, as interpolated into error
messages. -/
def tp_name : TypeTag → String
  | .strT => "str"
  | .intT => "int"
  | .listT => "list"
  | .dictT => "dict"
  | .boolT => "bool"
  | .noneT => "NoneType"
  | .floatT => "float"
  | .tupleT => "tuple"
  | .datetimeT => "datetime.datetime"
  | .dateT => "datetime.date"
  | .timeT => "datetime.time"
  | .uuidT => "UUID"
  | .otherT name => name

/-- `ffi!(PyObject_HasAttr(obj, DATACLASS_FIELDS_STR)) == 1`: only values
modelled with a `__dataclass_fields__` attribute report it. -/
def has_dataclass_fields : PyValue → Bool
  | .obj _ (some _) => true
  | _ => false

/-- The `ObType` enum of encode.rs (lines 67-82). -/
inductive ObType where
  | UNKNOWN
  | STR
  | INT
  | LIST
  | DICT
  | BOOL
  | NONE
  | FLOAT
  | TUPLE
  | DATETIME
  | DATE
  | TIME
  | UUID
  | DATACLASS
deriving DecidableEq

/-- `fn pyobject_to_obtype(obj, opts) -> ObType` (encode.rs lines 85-120):
a fixed-order chain of identity comparisons of `ob_type` against the
interned type objects, with the UUID and DATACLASS checks gated by their
option bits. -/
def pyobject_to_obtype (obj : PyValue) (opts : Nat) : ObType :=
  if ob_type obj = .strT then .STR
  else if ob_type obj = .intT then .INT
  else if ob_type obj = .listT then .LIST
  else if ob_type obj = .dictT then .DICT
  else if ob_type obj = .boolT then .BOOL
  else if ob_type obj = .noneT then .NONE
  else if ob_type obj = .floatT then .FLOAT
  else if ob_type obj = .tupleT then .TUPLE
  else if ob_type obj = .datetimeT then .DATETIME
  else if ob_type obj = .dateT then .DATE
  else if ob_type obj = .timeT then .TIME
  else if ob_type obj = .uuidT ∧ opts &&& SERIALIZE_UUID = SERIALIZE_UUID then .UUID
  else if opts &&& SERIALIZE_DATACLASS = SERIALIZE_DATACLASS ∧
            has_dataclass_fields obj then .DATACLASS
  else .UNKNOWN

/-- The JSON value written by the serde sink, with object entries kept in
emission order (serde_json writes them in the order the loops emit them). -/
inductive Json where
  | null
  | bool (b : Bool)
  | num (n : Int)
  | float (bits : Nat)
  | str (s : String)
  | arr (items : List Json)
  | obj (entries : List (String × Json))

/-- The error enum of `write_datetime` as far as encode.rs observes it:
`DatetimeError::Library`. -/
inductive DatetimeError where
  | library

/-- The terminal errors the serializer can raise (each `err!` site of
encode.rs, tagged with the spec's taxonomy names); `errMsg` recovers the
literal message strings. -/
inductive EncodeError where
  | invalidString
  | integerOverflow
  | integerRangeExceeded
  | nonStringKey
  | recursionLimitReached
  | fallbackRecursionLimitReached
  | fallbackHookFailed (tp : String)
  | typeNotSerializable (tp : String)
  | timeMustNotHaveTimezone
  | unsupportedTimezoneLibrary
deriving DecidableEq

/-- `INVALID_STR` is defined in `exc.rs`, outside `src/`; its literal
text is immaterial to the claims. -/
def INVALID_STR : String := "str is not valid UTF-8: surrogates not allowed"

/-- `RECURSION_LIMIT_REACHED` is defined in `exc.rs`, outside `src/`. -/
def RECURSION_LIMIT_REACHED : String := "Recursion limit reached"

/-- The message string passed to `ser::Error::custom` at each `err!` site. -/
def errMsg : EncodeError → String
  | .invalidString => INVALID_STR
  | .integerOverflow => "Integer exceeds 64-bit range"
  | .integerRangeExceeded => "Integer exceeds 53-bit range"
  | .nonStringKey => "Dict key must be str"
  | .recursionLimitReached => RECURSION_LIMIT_REACHED
  | .fallbackRecursionLimitReached => "default serializer exceeds recursion limit"
  | .fallbackHookFailed tp => "Type raised exception in default function: " ++ tp
  | .typeNotSerializable tp => "Type is not JSON serializable: " ++ tp
  | .timeMustNotHaveTimezone => "datetime.time must not have tzinfo set"
  | .unsupportedTimezoneLibrary =>
      "datetime's timezone library is not supported: use datetime.timezone.utc, pendulum, pytz, or dateutil"

/-- Outcome of `PyObject_CallFunctionObjArgs` on the user's `default`
callable: a non-null replacement object, a null return with a Python
exception pending (`PyErr_Occurred()` non-null), or a null return with no
exception pending. -/
inductive HookResult where
  | value (v : PyValue)
  | raised
  | nullNoErr

/-- `read_utf8_from_str`: yields the string's bytes, or null (`none`) when
the UTF-8 read fails.  (Implemented in `unicode.rs`, outside `src/`; the
value handle records whether the read succeeds.) -/
def read_utf8_from_str : PyValue → Option String
  | .str true s => some s
  | _ => Option.none

/-- `ffi!(PyLong_AsLongLong(self.ptr))`: `none` models the `-1` return
with an error pending, which happens exactly when the integer does not fit
a signed 64-bit integer. -/
def pyLong_AsLongLong : PyValue → Option Int
  | .int val => if I64_MIN ≤ val ∧ val ≤ I64_MAX then some val else Option.none
  | _ => Option.none

/-- `ffi!(PyFloat_AS_DOUBLE(self.ptr))` (payload opaque). -/
def pyFloat_AS_DOUBLE : PyValue → Nat
  | .float bits => bits
  | _ => 0

/-- `self.ptr == TRUE`: identity comparison against the `True` singleton. -/
def is_TRUE : PyValue → Bool
  | .bool b => b
  | _ => false

/-- `(*(self.ptr as *mut PyDateTime_Time)).hastzinfo == 1`. -/
def time_hastzinfo : PyValue → Bool
  | .time tz .. => tz
  | _ => false

/-- `write_datetime(self.ptr, self.opts, &mut buf)` (implemented in
`datetime.rs`, outside `src/`): the value handle carries whether the
timezone library is supported and the buffer produced on success. -/
def write_datetime (v : PyValue) (_opts : Nat) : Except DatetimeError String :=
  match v with
  | .datetime true rendered => .ok rendered
  | _ => .error .library

/-- `Date::new(self.ptr).serialize(...)` (implemented in `datetime.rs`,
outside `src/`): the value handle carries the rendered `YYYY-MM-DD`. -/
def write_date : PyValue → String
  | .date rendered => rendered
  | _ => ""

/-- Zero-padded two-digit decimal field. -/
def pad2 (n : Nat) : String :=
  if n < 10 then "0" ++ Nat.repr n else Nat.repr n

/-- Zero-padded six-digit decimal field. -/
def pad6 (n : Nat) : String :=
  String.mk (List.replicate (6 - (Nat.repr n).length) '0') ++ Nat.repr n

/-- Modelled from the spec: "Time: format as `HH:MM:SS[.ffffff]`;
fractional seconds included only if non-zero, printed as exactly 6 digits
when present" (§4.3).  `Time::new(self.ptr, self.opts).serialize(...)` is
implemented in `datetime.rs`, outside `src/`. -/
def write_time (hour minute second microsecond : Nat) : String :=
  pad2 hour ++ ":" ++ pad2 minute ++ ":" ++ pad2 second ++
    (if microsecond = 0 then "" else "." ++ pad6 microsecond)

/-- The rendering of a `datetime.time` value (its tzinfo flag plays no
part: the tzinfo check happens in encode.rs before rendering). -/
def serialize_time : PyValue → String
  | .time _ hour minute second microsecond => write_time hour minute second microsecond
  | _ => ""

/-- `write_uuid(self.ptr, &mut buf)` (implemented in `uuid.rs`, outside
`src/`): the value handle carries the rendered hyphenated hex form. -/
def write_uuid : PyValue → String
  | .uuid rendered => rendered
  | _ => ""

/-- The item slice of a `PyListObject`. -/
def listItems : PyValue → List PyValue
  | .list items => items
  | _ => []

/-- The items yielded by `PyTupleIterator`. -/
def tupleItems : PyValue → List PyValue
  | .tuple items => items
  | _ => []

/-- The (key, value) pairs yielded by `PyDict_Next`, in insertion order. -/
def dictItems : PyValue → List (PyValue × PyValue)
  | .dict entries => entries
  | _ => []

/-- The (field-name, attribute-value) pairs walked by the DATACLASS arm:
`PyDict_Next` over `__dataclass_fields__` paired with
`PyObject_GetAttr(self.ptr, attr)`. -/
def dataclassItems : PyValue → List (PyValue × PyValue)
  | .obj _ (some fs) => fs
  | _ => []

/-- The `struct SerializePyObject` of encode.rs (lines 122-128). -/
structure SerializePyObject where
  ptr : PyValue
  default : Option (PyValue → HookResult)
  opts : Nat
  default_calls : Fin 256
  recursion : Fin 256

theorem sizeOf_listItems (v : PyValue) (opts : Nat)
    (h : pyobject_to_obtype v opts = ObType.LIST) :
    sizeOf (listItems v) < sizeOf v := by
  cases v
  case list items =>
    simp [listItems]
    try omega
  all_goals exfalso
  all_goals revert h
  all_goals simp [pyobject_to_obtype, ob_type, has_dataclass_fields]
  all_goals (split_ifs <;> simp)

theorem sizeOf_tupleItems (v : PyValue) (opts : Nat)
    (h : pyobject_to_obtype v opts = ObType.TUPLE) :
    sizeOf (tupleItems v) < sizeOf v := by
  cases v
  case tuple items =>
    simp [tupleItems]
    try omega
  all_goals exfalso
  all_goals revert h
  all_goals simp [pyobject_to_obtype, ob_type, has_dataclass_fields]
  all_goals (split_ifs <;> simp)

theorem sizeOf_dictItems (v : PyValue) (opts : Nat)
    (h : pyobject_to_obtype v opts = ObType.DICT) :
    sizeOf (dictItems v) < sizeOf v := by
  cases v
  case dict entries =>
    simp [dictItems]
    try omega
  all_goals exfalso
  all_goals revert h
  all_goals simp [pyobject_to_obtype, ob_type, has_dataclass_fields]
  all_goals (split_ifs <;> simp)

theorem sizeOf_dataclassItems (v : PyValue) (opts : Nat)
    (h : pyobject_to_obtype v opts = ObType.DATACLASS) :
    sizeOf (dataclassItems v) < sizeOf v := by
  cases v
  case obj name fields =>
    cases fields
    case some fs =>
      simp [dataclassItems]
      try omega
    case none =>
      exfalso
      revert h
      simp [pyobject_to_obtype, ob_type, has_dataclass_fields]
  all_goals exfalso
  all_goals revert h
  all_goals simp [pyobject_to_obtype, ob_type, has_dataclass_fields]
  all_goals (split_ifs <;> simp)

theorem fallback_dec (dc : Fin 256) (h : ¬ dc = RECURSION_LIMIT) :
    255 - (dc + 1).val < 255 - dc.val := by
  have hval : ¬ dc.val = 255 := by
    intro hv
    exact h (Fin.ext (by simpa [RECURSION_LIMIT] using hv))
  have hlt : dc.val < 255 := by
    have := dc.isLt
    omega
  have hone : ((1 : Fin 256)).val = 1 := by decide
  have hadd : (dc + 1).val = dc.val + 1 := by
    rw [Fin.val_add, hone]
    omega
  omega

mutual

/-- The body of `impl Serialize for SerializePyObject` (encode.rs lines
130-326): classify `self.ptr` with `pyobject_to_obtype`, then serialize
according to the resulting `ObType`.  Each arm mirrors the corresponding
`match` arm of the source; note that the TUPLE arm, unlike DICT, LIST and
DATACLASS, performs no `recursion == RECURSION_LIMIT` check. -/
def SerializePyObject.serialize (self : SerializePyObject) : Except EncodeError Json :=
  match h : pyobject_to_obtype self.ptr self.opts with
  | .STR =>
    match read_utf8_from_str self.ptr with
    | Option.none => .error .invalidString
    | some s => .ok (.str s)
  | .INT =>
    match pyLong_AsLongLong self.ptr with
    | Option.none => .error .integerOverflow
    | some val =>
      if self.opts &&& STRICT_INTEGER = STRICT_INTEGER ∧
          (val > STRICT_INT_MAX ∨ val < STRICT_INT_MIN) then
        .error .integerRangeExceeded
      else
        .ok (.num val)
  | .NONE => .ok .null
  | .FLOAT => .ok (.float (pyFloat_AS_DOUBLE self.ptr))
  | .BOOL => .ok (.bool (is_TRUE self.ptr))
  | .DATETIME =>
    match write_datetime self.ptr self.opts with
    | .ok buf => .ok (.str buf)
    | .error .library => .error .unsupportedTimezoneLibrary
  | .DATE => .ok (.str (write_date self.ptr))
  | .TIME =>
    if time_hastzinfo self.ptr then .error .timeMustNotHaveTimezone
    else .ok (.str (serialize_time self.ptr))
  | .UUID => .ok (.str (write_uuid self.ptr))
  | .DICT =>
    if self.recursion = RECURSION_LIMIT then .error .recursionLimitReached
    else
      match serializeMapEntries self.default self.opts self.default_calls
          self.recursion (dictItems self.ptr) with
      | .error e => .error e
      | .ok kvs => .ok (.obj kvs)
  | .LIST =>
    if self.recursion = RECURSION_LIMIT then .error .recursionLimitReached
    else
      match serializeSeqElems self.default self.opts self.default_calls
          self.recursion (listItems self.ptr) with
      | .error e => .error e
      | .ok js => .ok (.arr js)
  | .TUPLE =>
    match serializeSeqElems self.default self.opts self.default_calls
        self.recursion (tupleItems self.ptr) with
    | .error e => .error e
    | .ok js => .ok (.arr js)
  | .DATACLASS =>
    if self.recursion = RECURSION_LIMIT then .error .recursionLimitReached
    else
      match serializeDataclassFieldEntries self.default self.opts self.default_calls
          self.recursion (dataclassItems self.ptr) with
      | .error e => .error e
      | .ok kvs => .ok (.obj kvs)
  | .UNKNOWN =>
    match self.default with
    | some hook =>
      if hdc : self.default_calls = RECURSION_LIMIT then
        .error .fallbackRecursionLimitReached
      else
        match hook self.ptr with
        | .value default_obj =>
          SerializePyObject.serialize
            ⟨default_obj, self.default, self.opts, self.default_calls + 1, self.recursion⟩
        | .raised => .error (.fallbackHookFailed (tp_name (ob_type self.ptr)))
        | .nullNoErr => .error (.typeNotSerializable (tp_name (ob_type self.ptr)))
    | Option.none => .error (.typeNotSerializable (tp_name (ob_type self.ptr)))
termination_by (255 - self.default_calls.val, sizeOf self.ptr)
decreasing_by
  · exact Prod.Lex.right _ (sizeOf_dictItems self.ptr self.opts h)
  · exact Prod.Lex.right _ (sizeOf_listItems self.ptr self.opts h)
  · exact Prod.Lex.right _ (sizeOf_tupleItems self.ptr self.opts h)
  · exact Prod.Lex.right _ (sizeOf_dataclassItems self.ptr self.opts h)
  · exact Prod.Lex.left _ _ (fallback_dec self.default_calls hdc)

/-- The element loop shared by the LIST arm (encode.rs lines 222-230) and
the TUPLE arm (lines 235-243): each element is serialized with the parent's
`default_calls` and with `recursion + 1`; the first error aborts. -/
def serializeSeqElems (default : Option (PyValue → HookResult)) (opts : Nat)
    (default_calls recursion : Fin 256) :
    List PyValue → Except EncodeError (List Json)
  | [] => .ok []
  | elem :: rest =>
    match SerializePyObject.serialize
        ⟨elem, default, opts, default_calls, recursion + 1⟩ with
    | .error e => .error e
    | .ok j =>
      match serializeSeqElems default opts default_calls recursion rest with
      | .error e => .error e
      | .ok js => .ok (j :: js)
termination_by xs => (255 - default_calls.val, sizeOf xs)
decreasing_by
  · exact Prod.Lex.right _ (by simp; try omega)
  · exact Prod.Lex.right _ (by simp; try omega)

/-- The `PyDict_Next` loop of the DICT arm (encode.rs lines 188-208): a
non-`str` key fails with `NonStringKey`, a key whose UTF-8 read fails with
`InvalidString`; each value is serialized with the parent's
`default_calls` and with `recursion + 1`; entries are emitted in
insertion order. -/
def serializeMapEntries (default : Option (PyValue → HookResult)) (opts : Nat)
    (default_calls recursion : Fin 256) :
    List (PyValue × PyValue) → Except EncodeError (List (String × Json))
  | [] => .ok []
  | (key, value) :: rest =>
    if ¬ ob_type key = TypeTag.strT then .error .nonStringKey
    else
      match read_utf8_from_str key with
      | Option.none => .error .invalidString
      | some ks =>
        match SerializePyObject.serialize
            ⟨value, default, opts, default_calls, recursion + 1⟩ with
        | .error e => .error e
        | .ok j =>
          match serializeMapEntries default opts default_calls recursion rest with
          | .error e => .error e
          | .ok kvs => .ok ((ks, j) :: kvs)
termination_by entries => (255 - default_calls.val, sizeOf entries)
decreasing_by
  · exact Prod.Lex.right _ (by simp; try omega)
  · exact Prod.Lex.right _ (by simp; try omega)

/-- The `PyDict_Next` loop of the DATACLASS arm (encode.rs lines 257-278)
over the `__dataclass_fields__` dict: the field name's UTF-8 read may fail
with `InvalidString` (there is no key-type check here); each attribute
value is serialized with the parent's `default_calls` and with
`recursion + 1`; fields are emitted in declaration order. -/
def serializeDataclassFieldEntries (default : Option (PyValue → HookResult)) (opts : Nat)
    (default_calls recursion : Fin 256) :
    List (PyValue × PyValue) → Except EncodeError (List (String × Json))
  | [] => .ok []
  | (attr, value) :: rest =>
    match read_utf8_from_str attr with
    | Option.none => .error .invalidString
    | some ks =>
      match SerializePyObject.serialize
          ⟨value, default, opts, default_calls, recursion + 1⟩ with
      | .error e => .error e
      | .ok j =>
        match serializeDataclassFieldEntries default opts default_calls recursion rest with
        | .error e => .error e
        | .ok kvs => .ok ((ks, j) :: kvs)
termination_by fs => (255 - default_calls.val, sizeOf fs)
decreasing_by
  · exact Prod.Lex.right _ (by simp; try omega)
  · exact Prod.Lex.right _ (by simp; try omega)

end

/-- `pub fn serialize(ptr, default, opts)` (encode.rs lines 38-63): runs
the recursive serializer from `default_calls = 0`, `recursion = 0`; on
failure the serde error's message becomes the caller-visible error. -/
def serialize (ptr : PyValue) (default : Option (PyValue → HookResult))
    (opts : Nat) : Except String Json :=
  match SerializePyObject.serialize ⟨ptr, default, opts, 0, 0⟩ with
  | .ok j => .ok j
  | .error e => .error (errMsg e)

/-- Unfolding of the UNKNOWN arm (encode.rs lines 281-323) for a value of
symbolic classification. -/
theorem serialize_unknown_eq (v : PyValue) (d : Option (PyValue → HookResult))
    (o : Nat) (dc rc : Fin 256) (hun : pyobject_to_obtype v o = ObType.UNKNOWN) :
    SerializePyObject.serialize ⟨v, d, o, dc, rc⟩ =
      (match d with
        | some hook =>
          if dc = RECURSION_LIMIT then
            .error .fallbackRecursionLimitReached
          else
            match hook v with
            | .value default_obj =>
              SerializePyObject.serialize ⟨default_obj, d, o, dc + 1, rc⟩
            | .raised => .error (.fallbackHookFailed (tp_name (ob_type v)))
            | .nullNoErr => .error (.typeNotSerializable (tp_name (ob_type v)))
        | Option.none => .error (.typeNotSerializable (tp_name (ob_type v)))) := by
  conv_lhs => rw [SerializePyObject.serialize.eq_def]
  split
  all_goals rename_i heq
  all_goals rw [hun] at heq
  all_goals try (exact absurd heq (by decide))
  simp only [dite_eq_ite]

/-- C1 counterexample: a Tuple encountered at recursion depth 255 does
not fail with `RecursionLimitReached` — the TUPLE arm has no depth check —
while the claim asserts it fails exactly as List/Map/StructuredRecord do. -/
theorem tuple_depth_check_counterexample :
    SerializePyObject.serialize
      ⟨PyValue.tuple [PyValue.none], Option.none, 0, 0, 255⟩ = .ok (.arr [.null]) ∧
    ¬ SerializePyObject.serialize
        ⟨PyValue.tuple [PyValue.none], Option.none, 0, 0, 255⟩ =
      .error .recursionLimitReached := by
  constructor
  · simp [SerializePyObject.serialize, serializeSeqElems, pyobject_to_obtype, ob_type,
      tupleItems]
  · simp [SerializePyObject.serialize, serializeSeqElems, pyobject_to_obtype, ob_type,
      tupleItems]

/-- C1 (amended): before descending, List, Map and StructuredRecord
containers check `recursion == 255` and fail with `RecursionLimitReached`;
a Tuple performs no such check and descends into its elements (each
serialized with depth `255 + 1`, which wraps to 0 in the `u8`). -/
theorem container_depth_checks (xs : List PyValue)
    (entries fs : List (PyValue × PyValue)) (name : String)
    (d : Option (PyValue → HookResult)) (o : Nat) (dc : Fin 256) :
    SerializePyObject.serialize ⟨PyValue.list xs, d, o, dc, 255⟩ =
      .error .recursionLimitReached ∧
    SerializePyObject.serialize ⟨PyValue.dict entries, d, o, dc, 255⟩ =
      .error .recursionLimitReached ∧
    SerializePyObject.serialize
        ⟨PyValue.obj name (some fs), d, SERIALIZE_DATACLASS, dc, 255⟩ =
      .error .recursionLimitReached ∧
    SerializePyObject.serialize ⟨PyValue.tuple xs, d, o, dc, 255⟩ =
      (match serializeSeqElems d o dc 255 xs with
        | .error e => .error e
        | .ok js => .ok (.arr js)) := by
  have hdc : SERIALIZE_DATACLASS &&& SERIALIZE_DATACLASS = SERIALIZE_DATACLASS := by decide
  refine ⟨?_, ?_, ?_, ?_⟩ <;>
    simp [SerializePyObject.serialize, pyobject_to_obtype, ob_type, has_dataclass_fields,
      RECURSION_LIMIT, hdc, tupleItems]

/-- C5: a value whose host type is the boolean type classifies as BOOL
(never INT, although the INT identity check runs earlier in the chain),
and serializes to a JSON boolean via identity against the `True`
singleton. -/
theorem bool_classification (b : Bool) (opts : Nat)
    (d : Option (PyValue → HookResult)) (dc rc : Fin 256) :
    pyobject_to_obtype (PyValue.bool b) opts = ObType.BOOL ∧
    ¬ pyobject_to_obtype (PyValue.bool b) opts = ObType.INT ∧
    SerializePyObject.serialize ⟨PyValue.bool b, d, opts, dc, rc⟩ = .ok (.bool b) := by
  refine ⟨?_, ?_, ?_⟩ <;>
    simp [SerializePyObject.serialize, pyobject_to_obtype, ob_type, is_TRUE]

/-- C7: a `datetime.time` value carrying tzinfo fails with
`TimeMustNotHaveTimezone` whatever its other fields; without tzinfo this
check does not reject it and the rendered time string is emitted. -/
theorem time_tzinfo_rejection (hour minute second microsecond : Nat)
    (d : Option (PyValue → HookResult)) (opts : Nat) (dc rc : Fin 256) :
    SerializePyObject.serialize
        ⟨PyValue.time true hour minute second microsecond, d, opts, dc, rc⟩ =
      .error .timeMustNotHaveTimezone ∧
    SerializePyObject.serialize
        ⟨PyValue.time false hour minute second microsecond, d, opts, dc, rc⟩ =
      .ok (.str (write_time hour minute second microsecond)) := by
  constructor <;>
    simp [SerializePyObject.serialize, pyobject_to_obtype, ob_type, time_hastzinfo,
      serialize_time]

/-- C8: an UNKNOWN-classified value with no fallback hook configured fails
with `TypeNotSerializable`, whose message names the value's type. -/
theorem unknown_without_default (v : PyValue) (opts : Nat) (dc rc : Fin 256)
    (h : pyobject_to_obtype v opts = ObType.UNKNOWN) :
    SerializePyObject.serialize ⟨v, Option.none, opts, dc, rc⟩ =
      .error (.typeNotSerializable (tp_name (ob_type v))) ∧
    errMsg (.typeNotSerializable (tp_name (ob_type v))) =
      "Type is not JSON serializable: " ++ tp_name (ob_type v) := by
  constructor
  · simp only [SerializePyObject.serialize]
    split <;> simp_all
  · simp [errMsg]

/-- C8 witness at a concrete unrecognized object of type `Foo`. -/
theorem unknown_without_default_witness :
    SerializePyObject.serialize
        ⟨PyValue.obj "Foo" Option.none, Option.none, 0, 0, 0⟩ =
      .error (.typeNotSerializable "Foo") ∧
    errMsg (.typeNotSerializable "Foo") = "Type is not JSON serializable: Foo" :=
  unknown_without_default (PyValue.obj "Foo" Option.none) 0 0 0 (by decide)

/-- C9: with a fallback hook configured (and the fallback budget not yet
exhausted), a null hook return WITHOUT a pending exception yields the
`TypeNotSerializable` error, while `FallbackHookFailed` ("Type raised
exception in default function: ...") arises only from a null return WITH a
pending exception. -/
theorem default_null_return_disambiguation (v : PyValue) (opts : Nat)
    (hook : PyValue → HookResult) (dc rc : Fin 256)
    (hun : pyobject_to_obtype v opts = ObType.UNKNOWN)
    (hb : ¬ dc = RECURSION_LIMIT) :
    (hook v = HookResult.nullNoErr →
      SerializePyObject.serialize ⟨v, some hook, opts, dc, rc⟩ =
        .error (.typeNotSerializable (tp_name (ob_type v)))) ∧
    (hook v = HookResult.raised →
      SerializePyObject.serialize ⟨v, some hook, opts, dc, rc⟩ =
        .error (.fallbackHookFailed (tp_name (ob_type v)))) ∧
    errMsg (.typeNotSerializable (tp_name (ob_type v))) =
      "Type is not JSON serializable: " ++ tp_name (ob_type v) ∧
    errMsg (.fallbackHookFailed (tp_name (ob_type v))) =
      "Type raised exception in default function: " ++ tp_name (ob_type v) := by
  refine ⟨?_, ?_, ?_, ?_⟩
  · intro hhook
    rw [serialize_unknown_eq v (some hook) opts dc rc hun]
    simp [hb, hhook]
  · intro hhook
    rw [serialize_unknown_eq v (some hook) opts dc rc hun]
    simp [hb, hhook]
  · simp [errMsg]
  · simp [errMsg]

/-- C9 witness: hooks that return null with and without a pending
exception, on a concrete unrecognized object of type `Foo`. -/
theorem default_null_return_disambiguation_witness :
    SerializePyObject.serialize
        ⟨PyValue.obj "Foo" Option.none,
          some (fun _ => HookResult.nullNoErr), 0, 0, 0⟩ =
      .error (.typeNotSerializable "Foo") ∧
    SerializePyObject.serialize
        ⟨PyValue.obj "Foo" Option.none,
          some (fun _ => HookResult.raised), 0, 0, 0⟩ =
      .error (.fallbackHookFailed "Foo") :=
  ⟨(default_null_return_disambiguation (PyValue.obj "Foo" Option.none) 0
      (fun _ => HookResult.nullNoErr) 0 0 (by decide) (by decide)).1 rfl,
    (default_null_return_disambiguation (PyValue.obj "Foo" Option.none) 0
      (fun _ => HookResult.raised) 0 0 (by decide) (by decide)).2.1 rfl⟩

/-- C3: for an UNKNOWN value with a hook configured: at
`default_calls == 255` the call fails with `FallbackRecursionLimitReached`
without invoking the hook; below the bound, a replacement value returned
by the hook is re-classified and encoded by the full serializer with
`default_calls + 1` and the recursion depth unchanged. -/
theorem fallback_invocation (v : PyValue) (opts : Nat)
    (hook : PyValue → HookResult) (dc rc : Fin 256)
    (hun : pyobject_to_obtype v opts = ObType.UNKNOWN) :
    (dc = RECURSION_LIMIT →
      SerializePyObject.serialize ⟨v, some hook, opts, dc, rc⟩ =
        .error .fallbackRecursionLimitReached) ∧
    (∀ v', ¬ dc = RECURSION_LIMIT → hook v = HookResult.value v' →
      SerializePyObject.serialize ⟨v, some hook, opts, dc, rc⟩ =
        SerializePyObject.serialize ⟨v', some hook, opts, dc + 1, rc⟩) := by
  constructor
  · intro hdc
    rw [serialize_unknown_eq v (some hook) opts dc rc hun]
    simp [hdc]
  · intro v' hdc hhook
    rw [serialize_unknown_eq v (some hook) opts dc rc hun]
    simp [hdc, hhook]

/-- C3 witness: at the bound the call fails; below it, a hook returning
the string `"X"` makes the call encode `"X"` with the counter advanced. -/
theorem fallback_invocation_witness :
    SerializePyObject.serialize
        ⟨PyValue.obj "Foo" Option.none,
          some (fun _ => HookResult.value (PyValue.str true "X")), 0, 255, 0⟩ =
      .error .fallbackRecursionLimitReached ∧
    SerializePyObject.serialize
        ⟨PyValue.obj "Foo" Option.none,
          some (fun _ => HookResult.value (PyValue.str true "X")), 0, 0, 0⟩ =
      SerializePyObject.serialize
        ⟨PyValue.str true "X",
          some (fun _ => HookResult.value (PyValue.str true "X")), 0, 1, 0⟩ :=
  ⟨(fallback_invocation (PyValue.obj "Foo" Option.none) 0
      (fun _ => HookResult.value (PyValue.str true "X")) 255 0 (by decide)).1 rfl,
    (fallback_invocation (PyValue.obj "Foo" Option.none) 0
      (fun _ => HookResult.value (PyValue.str true "X")) 0 0 (by decide)).2
      (PyValue.str true "X") (by decide) rfl⟩

theorem I64_MIN_eq : I64_MIN = -9223372036854775808 := by norm_num [I64_MIN]

theorem I64_MAX_eq : I64_MAX = 9223372036854775807 := by norm_num [I64_MAX]

/-- Unfolding of the INT arm (encode.rs lines 144-154). -/
theorem serialize_int_eq (val : Int) (d : Option (PyValue → HookResult))
    (o : Nat) (dc rc : Fin 256) :
    SerializePyObject.serialize ⟨PyValue.int val, d, o, dc, rc⟩ =
      if I64_MIN ≤ val ∧ val ≤ I64_MAX then
        (if o &&& STRICT_INTEGER = STRICT_INTEGER ∧
            (val > STRICT_INT_MAX ∨ val < STRICT_INT_MIN) then
          .error .integerRangeExceeded
        else .ok (.num val))
      else .error .integerOverflow := by
  conv_lhs => rw [SerializePyObject.serialize.eq_def]
  by_cases hin : I64_MIN ≤ val ∧ val ≤ I64_MAX
  · simp [pyobject_to_obtype, ob_type, pyLong_AsLongLong, hin]
  · simp [pyobject_to_obtype, ob_type, pyLong_AsLongLong, hin]

/-- C4 counterexample: an integer below `-9007199254740991` that also
lies below the 64-bit range fails even without `StrictInteger` (with
`IntegerOverflow`), so such values do not fail "only in strict mode". -/
theorem strict_only_failure_counterexample :
    SerializePyObject.serialize
        ⟨PyValue.int (-18446744073709551616), Option.none, 0, 0, 0⟩ =
      .error .integerOverflow ∧
    (-18446744073709551616 : Int) < STRICT_INT_MIN := by
  constructor
  · rw [serialize_int_eq, if_neg (by decide)]
  · decide

/-- C4 (amended): `9007199254740991` encodes under `StrictInteger` while
`9007199254740992` fails with `IntegerRangeExceeded` there and encodes
without the option; values below `-9007199254740991` that still fit a
signed 64-bit integer fail with `IntegerRangeExceeded` only in strict
mode and encode otherwise, while values below the 64-bit range fail with
`IntegerOverflow` in both modes. -/
theorem strict_integer_boundaries (d : Option (PyValue → HookResult))
    (dc rc : Fin 256) :
    SerializePyObject.serialize
        ⟨PyValue.int 9007199254740991, d, STRICT_INTEGER, dc, rc⟩ =
      .ok (.num 9007199254740991) ∧
    SerializePyObject.serialize
        ⟨PyValue.int 9007199254740992, d, STRICT_INTEGER, dc, rc⟩ =
      .error .integerRangeExceeded ∧
    SerializePyObject.serialize ⟨PyValue.int 9007199254740992, d, 0, dc, rc⟩ =
      .ok (.num 9007199254740992) ∧
    (∀ val : Int, val < STRICT_INT_MIN → I64_MIN ≤ val →
      SerializePyObject.serialize ⟨PyValue.int val, d, STRICT_INTEGER, dc, rc⟩ =
        .error .integerRangeExceeded ∧
      SerializePyObject.serialize ⟨PyValue.int val, d, 0, dc, rc⟩ =
        .ok (.num val)) ∧
    (∀ val : Int, val < I64_MIN →
      SerializePyObject.serialize ⟨PyValue.int val, d, STRICT_INTEGER, dc, rc⟩ =
        .error .integerOverflow ∧
      SerializePyObject.serialize ⟨PyValue.int val, d, 0, dc, rc⟩ =
        .error .integerOverflow) := by
  refine ⟨?_, ?_, ?_, ?_, ?_⟩
  · rw [serialize_int_eq, if_pos (by decide), if_neg (by decide)]
  · rw [serialize_int_eq, if_pos (by decide), if_pos (by decide)]
  · rw [serialize_int_eq, if_pos (by decide), if_neg (by decide)]
  · intro val h1 h2
    have h1' : val < -9007199254740991 := by
      simpa [STRICT_INT_MIN] using h1
    have hmax : val ≤ I64_MAX := by
      rw [I64_MAX_eq]
      omega
    constructor
    · rw [serialize_int_eq, if_pos ⟨h2, hmax⟩, if_pos ⟨by decide, Or.inr h1⟩]
    · rw [serialize_int_eq, if_pos ⟨h2, hmax⟩,
        if_neg (fun hc => absurd hc.1 (by decide))]
  · intro val h
    have hni : ¬ (I64_MIN ≤ val ∧ val ≤ I64_MAX) := fun hc => absurd hc.1 (by omega)
    constructor <;> rw [serialize_int_eq, if_neg hni]

/-- C4 witness: the negative strict boundary neighbour
`-9007199254740992` fails only under `StrictInteger`. -/
theorem strict_integer_boundaries_witness :
    SerializePyObject.serialize
        ⟨PyValue.int (-9007199254740992), Option.none, STRICT_INTEGER, 0, 0⟩ =
      .error .integerRangeExceeded ∧
    SerializePyObject.serialize
        ⟨PyValue.int (-9007199254740992), Option.none, 0, 0, 0⟩ =
      .ok (.num (-9007199254740992)) :=
  (strict_integer_boundaries Option.none 0 0).2.2.2.1
    (-9007199254740992) (by decide) (by decide)

theorem RECURSION_LIMIT_val : RECURSION_LIMIT.val = 255 := rfl

theorem ne_limit_of_val_lt {dc : Fin 256} (h : dc.val < 255) :
    ¬ dc = RECURSION_LIMIT := by
  intro he
  rw [he, RECURSION_LIMIT_val] at h
  omega

theorem val_lt_of_ne_limit {dc : Fin 256} (h : ¬ dc = RECURSION_LIMIT) :
    dc.val < 255 := by
  have hlt := dc.isLt
  rcases Nat.lt_or_ge dc.val 255 with h' | h'
  · exact h'
  · exact absurd (Fin.ext (by rw [RECURSION_LIMIT_val]; omega)) h

theorem eq_limit_of_le_val {dc : Fin 256} (h : 255 ≤ dc.val) :
    dc = RECURSION_LIMIT := by
  have hlt := dc.isLt
  exact Fin.ext (by rw [RECURSION_LIMIT_val]; omega)

theorem fin256_add_one_val (dc : Fin 256) (h : dc.val < 255) :
    (dc + 1).val = dc.val + 1 := by
  rw [Fin.val_add]
  have h1 : ((1 : Fin 256)).val = 1 := rfl
  rw [h1]
  omega

/-- Unfolding of the STR arm (encode.rs lines 136-143) on a valid string. -/
theorem serialize_str_ok (s : String) (d : Option (PyValue → HookResult))
    (o : Nat) (dc rc : Fin 256) :
    SerializePyObject.serialize ⟨PyValue.str true s, d, o, dc, rc⟩ =
      .ok (.str s) := by
  conv_lhs => rw [SerializePyObject.serialize.eq_def]
  simp [pyobject_to_obtype, ob_type, read_utf8_from_str]

/-- Unfolding of the LIST arm (encode.rs lines 211-232). -/
theorem serialize_list_eq (xs : List PyValue) (d : Option (PyValue → HookResult))
    (o : Nat) (dc rc : Fin 256) :
    SerializePyObject.serialize ⟨PyValue.list xs, d, o, dc, rc⟩ =
      if rc = RECURSION_LIMIT then .error .recursionLimitReached
      else
        match serializeSeqElems d o dc rc xs with
        | .error e => .error e
        | .ok js => .ok (.arr js) := by
  conv_lhs => rw [SerializePyObject.serialize.eq_def]
  simp [pyobject_to_obtype, ob_type, listItems]

theorem seqElems_nil (d : Option (PyValue → HookResult)) (o : Nat)
    (dc rc : Fin 256) : serializeSeqElems d o dc rc [] = .ok [] := by
  conv_lhs => rw [serializeSeqElems.eq_def]

theorem seqElems_cons (d : Option (PyValue → HookResult)) (o : Nat)
    (dc rc : Fin 256) (elem : PyValue) (rest : List PyValue) :
    serializeSeqElems d o dc rc (elem :: rest) =
      match SerializePyObject.serialize ⟨elem, d, o, dc, rc + 1⟩ with
      | .error e => .error e
      | .ok j =>
        match serializeSeqElems d o dc rc rest with
        | .error e => .error e
        | .ok js => .ok (j :: js) := by
  conv_lhs => rw [serializeSeqElems.eq_def]

/-- A value that an `obj`-shaped fallback chain of length `k + 1` starts
from: an object of type `u` carrying `k` ballast field pairs (its
`__dataclass_fields__` attribute is irrelevant while `SERIALIZE_DATACLASS`
is unset, so it classifies UNKNOWN). -/
def chainV (k : Nat) : PyValue :=
  PyValue.obj "u" (some (List.replicate k (PyValue.none, PyValue.none)))

/-- A fallback hook replacing `chainV (k+1)` by `chainV k` and `chainV 0`
by the string `"X"`: serializing `chainV k` invokes the hook `k + 1`
times. -/
def chainHook : PyValue → HookResult
  | .obj _ (some []) => .value (PyValue.str true "X")
  | .obj n (some (_ :: rest)) => .value (PyValue.obj n (some rest))
  | _ => .nullNoErr

theorem chain_classifies_unknown (k : Nat) :
    pyobject_to_obtype (chainV k) 0 = ObType.UNKNOWN := by
  simp [chainV, pyobject_to_obtype, ob_type, has_dataclass_fields]
  decide

theorem chain_hook_zero : chainHook (chainV 0) = .value (PyValue.str true "X") := by
  simp [chainV, chainHook]

theorem chain_hook_succ (k : Nat) :
    chainHook (chainV (k + 1)) = .value (chainV k) := by
  simp [chainV, chainHook, List.replicate_succ]

/-- Serializing `chainV k` succeeds whenever the remaining fallback budget
covers the whole chain (`k + 1` hook invocations from `default_calls =
dc`). -/
theorem chain_ok (k : Nat) (dc rc : Fin 256) (h : dc.val + k ≤ 254) :
    SerializePyObject.serialize ⟨chainV k, some chainHook, 0, dc, rc⟩ =
      .ok (.str "X") := by
  induction k generalizing dc with
  | zero =>
    have hdc : ¬ dc = RECURSION_LIMIT := ne_limit_of_val_lt (by omega)
    rw [serialize_unknown_eq _ _ _ _ _ (chain_classifies_unknown 0)]
    simp [hdc, chain_hook_zero, serialize_str_ok]
  | succ k ih =>
    have hval : dc.val < 255 := by omega
    have hdc : ¬ dc = RECURSION_LIMIT := ne_limit_of_val_lt hval
    rw [serialize_unknown_eq _ _ _ _ _ (chain_classifies_unknown (k + 1))]
    simp only [chain_hook_succ k, hdc, if_false, ite_false, if_neg hdc]
    exact ih (dc + 1) (by rw [fin256_add_one_val dc hval]; omega)

/-- Serializing `chainV k` fails with the fallback limit error whenever
the chain is longer than the remaining fallback budget. -/
theorem chain_exhausts (k : Nat) (dc rc : Fin 256) (h : 255 ≤ dc.val + k) :
    SerializePyObject.serialize ⟨chainV k, some chainHook, 0, dc, rc⟩ =
      .error .fallbackRecursionLimitReached := by
  induction k generalizing dc with
  | zero =>
    have hdc : dc = RECURSION_LIMIT := eq_limit_of_le_val (by omega)
    rw [serialize_unknown_eq _ _ _ _ _ (chain_classifies_unknown 0)]
    simp [hdc]
  | succ k ih =>
    by_cases hdc : dc = RECURSION_LIMIT
    · rw [serialize_unknown_eq _ _ _ _ _ (chain_classifies_unknown (k + 1))]
      simp [hdc]
    · have hval : dc.val < 255 := val_lt_of_ne_limit hdc
      rw [serialize_unknown_eq _ _ _ _ _ (chain_classifies_unknown (k + 1))]
      simp only [chain_hook_succ k, hdc, if_false, ite_false, if_neg hdc]
      exact ih (dc + 1) (by rw [fin256_add_one_val dc hval]; omega)

/-- C10: the fallback counter is copied by value into container elements
and fallback replacements, so the 255-invocation bound holds per
root-to-leaf path, not globally.  Serializing `chainV 254` takes exactly
255 hook invocations — it succeeds with the full budget (`default_calls
= 0`) and fails with one unit less (`default_calls = 1`) — yet a list of
two such elements succeeds in a single call, performing 510 invocations
in total across the siblings. -/
theorem fallback_budget_per_path :
    SerializePyObject.serialize ⟨chainV 254, some chainHook, 0, 0, 0⟩ =
      .ok (.str "X") ∧
    SerializePyObject.serialize ⟨chainV 254, some chainHook, 0, 1, 0⟩ =
      .error .fallbackRecursionLimitReached ∧
    SerializePyObject.serialize
        ⟨PyValue.list [chainV 254, chainV 254], some chainHook, 0, 0, 0⟩ =
      .ok (.arr [.str "X", .str "X"]) := by
  refine ⟨chain_ok 254 0 0 (by decide), chain_exhausts 254 1 0 (by decide), ?_⟩
  rw [serialize_list_eq, if_neg (by decide), seqElems_cons,
    chain_ok 254 0 (0 + 1) (by decide), seqElems_cons,
    chain_ok 254 0 (0 + 1) (by decide), seqElems_nil]

/-- Unfolding of the DICT arm (encode.rs lines 179-210). -/
theorem serialize_dict_eq (entries : List (PyValue × PyValue))
    (d : Option (PyValue → HookResult)) (o : Nat) (dc rc : Fin 256) :
    SerializePyObject.serialize ⟨PyValue.dict entries, d, o, dc, rc⟩ =
      if rc = RECURSION_LIMIT then .error .recursionLimitReached
      else
        match serializeMapEntries d o dc rc entries with
        | .error e => .error e
        | .ok kvs => .ok (.obj kvs) := by
  conv_lhs => rw [SerializePyObject.serialize.eq_def]
  simp [pyobject_to_obtype, ob_type, dictItems]

theorem mapEntries_nil (d : Option (PyValue → HookResult)) (o : Nat)
    (dc rc : Fin 256) : serializeMapEntries d o dc rc [] = .ok [] := by
  conv_lhs => rw [serializeMapEntries.eq_def]

theorem mapEntries_cons (d : Option (PyValue → HookResult)) (o : Nat)
    (dc rc : Fin 256) (key value : PyValue) (rest : List (PyValue × PyValue)) :
    serializeMapEntries d o dc rc ((key, value) :: rest) =
      if ¬ ob_type key = TypeTag.strT then .error .nonStringKey
      else
        match read_utf8_from_str key with
        | Option.none => .error .invalidString
        | some ks =>
          match SerializePyObject.serialize ⟨value, d, o, dc, rc + 1⟩ with
          | .error e => .error e
          | .ok j =>
            match serializeMapEntries d o dc rc rest with
            | .error e => .error e
            | .ok kvs => .ok ((ks, j) :: kvs) := by
  conv_lhs => rw [serializeMapEntries.eq_def]

/-- The text carried by a `str` value handle. -/
def strContent : PyValue → String
  | .str _ s => s
  | _ => ""

theorem mapEntries_append_ok (d : Option (PyValue → HookResult)) (o : Nat)
    (dc rc : Fin 256) (good tail : List (PyValue × PyValue))
    (kvs : List (String × Json))
    (h : serializeMapEntries d o dc rc good = .ok kvs) :
    serializeMapEntries d o dc rc (good ++ tail) =
      match serializeMapEntries d o dc rc tail with
      | .error e => .error e
      | .ok rest => .ok (kvs ++ rest) := by
  induction good generalizing kvs with
  | nil =>
    rw [mapEntries_nil] at h
    obtain rfl : ([] : List (String × Json)) = kvs := by simpa using h
    rw [List.nil_append]
    cases hm : serializeMapEntries d o dc rc tail <;> simp
  | cons p rest ih =>
    obtain ⟨key, value⟩ := p
    rw [mapEntries_cons] at h
    by_cases hk : ¬ ob_type key = TypeTag.strT
    · rw [if_pos hk] at h
      exact absurd h (by simp)
    · rw [if_neg hk] at h
      cases hru : read_utf8_from_str key with
      | none => rw [hru] at h; exact absurd h (by simp)
      | some ks =>
        rw [hru] at h
        cases hsv : SerializePyObject.serialize ⟨value, d, o, dc, rc + 1⟩ with
        | error e => rw [hsv] at h; exact absurd h (by simp)
        | ok j =>
          rw [hsv] at h
          cases hrest : serializeMapEntries d o dc rc rest with
          | error e => rw [hrest] at h; exact absurd h (by simp)
          | ok kvs' =>
            rw [hrest] at h
            obtain rfl : (ks, j) :: kvs' = kvs := by simpa using h
            rw [List.cons_append, mapEntries_cons, if_neg hk, hru, hsv,
              ih kvs' hrest]
            cases hmt : serializeMapEntries d o dc rc tail <;> simp

theorem mapEntries_all_ok (d : Option (PyValue → HookResult)) (o : Nat)
    (dc rc : Fin 256) (entries : List (PyValue × PyValue))
    (h : ∀ kv ∈ entries, (∃ s, kv.1 = PyValue.str true s) ∧
      ∃ j, SerializePyObject.serialize ⟨kv.2, d, o, dc, rc + 1⟩ = .ok j) :
    ∃ kvs, serializeMapEntries d o dc rc entries = .ok kvs ∧
      kvs.map Prod.fst = entries.map (fun kv => strContent kv.1) := by
  induction entries with
  | nil => exact ⟨[], mapEntries_nil d o dc rc, by simp⟩
  | cons p rest ih =>
    obtain ⟨key, value⟩ := p
    obtain ⟨⟨s, hs⟩, j, hj⟩ := h (key, value) (List.mem_cons_self _ _)
    obtain ⟨kvs, hkvs, horder⟩ := ih (fun kv hkv => h kv (List.mem_cons_of_mem _ hkv))
    subst hs
    refine ⟨(s, j) :: kvs, ?_, ?_⟩
    · rw [mapEntries_cons, if_neg (by simp [ob_type]),
        show read_utf8_from_str (PyValue.str true s) = some s from rfl, hj, hkvs]
    · simpa [strContent] using horder

/-- C6: for a map below the depth limit, a key whose type is not `str`
(after any prefix of well-serialized entries) fails the call with
`NonStringKey`; a `str` key whose UTF-8 read fails fails the call with
`InvalidString`; and when every key is a valid string and every value
serializes, the entries are emitted in original insertion order. -/
theorem dict_key_policy (d : Option (PyValue → HookResult)) (o : Nat)
    (dc rc : Fin 256) (hrc : ¬ rc = RECURSION_LIMIT) :
    (∀ good key value rest kvs,
      serializeMapEntries d o dc rc good = .ok kvs →
      ¬ ob_type key = TypeTag.strT →
      SerializePyObject.serialize
          ⟨PyValue.dict (good ++ (key, value) :: rest), d, o, dc, rc⟩ =
        .error .nonStringKey) ∧
    (∀ good s value rest kvs,
      serializeMapEntries d o dc rc good = .ok kvs →
      SerializePyObject.serialize
          ⟨PyValue.dict (good ++ (PyValue.str false s, value) :: rest), d, o, dc, rc⟩ =
        .error .invalidString) ∧
    (∀ entries,
      (∀ kv ∈ entries, (∃ s, kv.1 = PyValue.str true s) ∧
        ∃ j, SerializePyObject.serialize ⟨kv.2, d, o, dc, rc + 1⟩ = .ok j) →
      ∃ kvs, SerializePyObject.serialize ⟨PyValue.dict entries, d, o, dc, rc⟩ =
        .ok (.obj kvs) ∧
        kvs.map Prod.fst = entries.map (fun kv => strContent kv.1)) := by
  refine ⟨?_, ?_, ?_⟩
  · intro good key value rest kvs hgood hk
    rw [serialize_dict_eq, if_neg hrc,
      mapEntries_append_ok d o dc rc good _ kvs hgood, mapEntries_cons,
      if_pos hk]
  · intro good s value rest kvs hgood
    rw [serialize_dict_eq, if_neg hrc,
      mapEntries_append_ok d o dc rc good _ kvs hgood, mapEntries_cons,
      if_neg (by simp [ob_type]),
      show read_utf8_from_str (PyValue.str false s) = Option.none from rfl]
  · intro entries h
    obtain ⟨kvs, hkvs, horder⟩ := mapEntries_all_ok d o dc rc entries h
    exact ⟨kvs, by rw [serialize_dict_eq, if_neg hrc, hkvs], horder⟩

/-- C6 witness: an integer-keyed map fails with `NonStringKey`; an
invalid-UTF-8 string key fails with `InvalidString`. -/
theorem dict_key_policy_witness :
    SerializePyObject.serialize
        ⟨PyValue.dict [(PyValue.int 1, PyValue.none)], Option.none, 0, 0, 0⟩ =
      .error .nonStringKey ∧
    SerializePyObject.serialize
        ⟨PyValue.dict [(PyValue.str false "a", PyValue.none)], Option.none, 0, 0, 0⟩ =
      .error .invalidString :=
  ⟨(dict_key_policy Option.none 0 0 0 (by decide)).1 [] (PyValue.int 1)
      PyValue.none [] [] (mapEntries_nil Option.none 0 0 0) (by decide),
    (dict_key_policy Option.none 0 0 0 (by decide)).2.1 [] "a" PyValue.none []
      [] (mapEntries_nil Option.none 0 0 0)⟩

/-- A key handle that is a `str` whose UTF-8 read succeeds. -/
def is_valid_str_key : PyValue → Bool
  | .str true _ => true
  | _ => false

mutual

/-- The shapes quantified over by the spec's depth-boundary property:
values consisting only of lists and maps (with valid string keys). -/
def containerOnly : PyValue → Bool
  | .list xs => containerOnlyList xs
  | .dict es => containerOnlyEntries es
  | _ => false

def containerOnlyList : List PyValue → Bool
  | [] => true
  | x :: xs => containerOnly x && containerOnlyList xs

def containerOnlyEntries : List (PyValue × PyValue) → Bool
  | [] => true
  | (k, v) :: es => is_valid_str_key k && (containerOnly v && containerOnlyEntries es)

end

mutual

/-- Structural container-nesting depth: 0 for scalars, one more than the
deepest contained value for lists and maps. -/
def containerDepth : PyValue → Nat
  | .list xs => 1 + containerDepthList xs
  | .dict es => 1 + containerDepthEntries es
  | _ => 0

def containerDepthList : List PyValue → Nat
  | [] => 0
  | x :: xs => max (containerDepth x) (containerDepthList xs)

def containerDepthEntries : List (PyValue × PyValue) → Nat
  | [] => 0
  | (_, v) :: es => max (containerDepth v) (containerDepthEntries es)

end

theorem containerDepth_list (xs : List PyValue) :
    containerDepth (PyValue.list xs) = 1 + containerDepthList xs := rfl

theorem containerDepth_dict (es : List (PyValue × PyValue)) :
    containerDepth (PyValue.dict es) = 1 + containerDepthEntries es := rfl

theorem valid_str_key_shape {k : PyValue} (h : is_valid_str_key k = true) :
    ∃ s, k = PyValue.str true s := by
  cases k with
  | str valid s => cases valid <;> simp_all [is_valid_str_key]
  | _ => simp_all [is_valid_str_key]

theorem containerOnlyList_mem {xs : List PyValue}
    (h : containerOnlyList xs = true) {x : PyValue} (hx : x ∈ xs) :
    containerOnly x = true := by
  induction xs with
  | nil => cases hx
  | cons y ys ih =>
    simp only [containerOnlyList, Bool.and_eq_true] at h
    rcases List.mem_cons.mp hx with rfl | hx'
    · exact h.1
    · exact ih h.2 hx'

theorem containerOnlyEntries_mem {es : List (PyValue × PyValue)}
    (h : containerOnlyEntries es = true) {kv : PyValue × PyValue}
    (hkv : kv ∈ es) :
    (∃ s, kv.1 = PyValue.str true s) ∧ containerOnly kv.2 = true := by
  induction es with
  | nil => cases hkv
  | cons p ps ih =>
    obtain ⟨k, v⟩ := p
    simp only [containerOnlyEntries, Bool.and_eq_true] at h
    rcases List.mem_cons.mp hkv with rfl | hkv'
    · exact ⟨valid_str_key_shape h.1, h.2.1⟩
    · exact ih h.2.2 hkv'

theorem containerDepthList_le_of_mem {xs : List PyValue} {x : PyValue}
    (hx : x ∈ xs) : containerDepth x ≤ containerDepthList xs := by
  induction xs with
  | nil => cases hx
  | cons y ys ih =>
    rcases List.mem_cons.mp hx with rfl | hx'
    · exact le_max_left _ _
    · exact le_trans (ih hx') (le_max_right _ _)

theorem containerDepthEntries_le_of_mem {es : List (PyValue × PyValue)}
    {kv : PyValue × PyValue} (hkv : kv ∈ es) :
    containerDepth kv.2 ≤ containerDepthEntries es := by
  induction es with
  | nil => cases hkv
  | cons p ps ih =>
    obtain ⟨k, v⟩ := p
    rcases List.mem_cons.mp hkv with rfl | hkv'
    · exact le_max_left _ _
    · exact le_trans (ih hkv') (le_max_right _ _)

theorem containerDepthList_attained {xs : List PyValue}
    (h : 0 < containerDepthList xs) :
    ∃ x ∈ xs, containerDepthList xs ≤ containerDepth x := by
  induction xs with
  | nil => simp [containerDepthList] at h
  | cons y ys ih =>
    by_cases hc : containerDepthList ys ≤ containerDepth y
    · exact ⟨y, List.mem_cons_self _ _, max_le le_rfl hc⟩
    · push_neg at hc
      obtain ⟨x, hx, hle⟩ := ih (by omega)
      exact ⟨x, List.mem_cons_of_mem _ hx, max_le (le_trans (le_of_lt hc) hle) hle⟩

theorem containerDepthEntries_attained {es : List (PyValue × PyValue)}
    (h : 0 < containerDepthEntries es) :
    ∃ kv ∈ es, containerDepthEntries es ≤ containerDepth kv.2 := by
  induction es with
  | nil => simp [containerDepthEntries] at h
  | cons p ps ih =>
    obtain ⟨k, v⟩ := p
    by_cases hc : containerDepthEntries ps ≤ containerDepth v
    · exact ⟨(k, v), List.mem_cons_self _ _, max_le le_rfl hc⟩
    · push_neg at hc
      obtain ⟨kv, hkv, hle⟩ := ih (by omega)
      exact ⟨kv, List.mem_cons_of_mem _ hkv,
        max_le (le_trans (le_of_lt hc) hle) hle⟩

theorem seqElems_all_ok (d : Option (PyValue → HookResult)) (o : Nat)
    (dc rc : Fin 256) (xs : List PyValue)
    (h : ∀ x ∈ xs, ∃ j,
      SerializePyObject.serialize ⟨x, d, o, dc, rc + 1⟩ = .ok j) :
    ∃ js, serializeSeqElems d o dc rc xs = .ok js := by
  induction xs with
  | nil => exact ⟨[], seqElems_nil d o dc rc⟩
  | cons x xs ih =>
    obtain ⟨j, hj⟩ := h x (List.mem_cons_self _ _)
    obtain ⟨js, hjs⟩ := ih (fun y hy => h y (List.mem_cons_of_mem _ hy))
    exact ⟨j :: js, by rw [seqElems_cons, hj, hjs]⟩

theorem seqElems_fails_of_mem (d : Option (PyValue → HookResult)) (o : Nat)
    (dc rc : Fin 256) (xs : List PyValue) (x : PyValue) (hx : x ∈ xs)
    (hfail : ∀ j, ¬ SerializePyObject.serialize ⟨x, d, o, dc, rc + 1⟩ = .ok j) :
    ∀ js, ¬ serializeSeqElems d o dc rc xs = .ok js := by
  induction xs with
  | nil => cases hx
  | cons y ys ih =>
    intro js hok
    rw [seqElems_cons] at hok
    rcases List.mem_cons.mp hx with rfl | hx'
    · cases hs : SerializePyObject.serialize ⟨x, d, o, dc, rc + 1⟩ with
      | error e => rw [hs] at hok; exact absurd hok (by simp)
      | ok j => exact hfail j hs
    · cases hs : SerializePyObject.serialize ⟨y, d, o, dc, rc + 1⟩ with
      | error e => rw [hs] at hok; exact absurd hok (by simp)
      | ok j =>
        rw [hs] at hok
        cases hr : serializeSeqElems d o dc rc ys with
        | error e => rw [hr] at hok; exact absurd hok (by simp)
        | ok js' => exact ih hx' js' hr

theorem seqElems_err_kind (d : Option (PyValue → HookResult)) (o : Nat)
    (dc rc : Fin 256) (xs : List PyValue)
    (h : ∀ x ∈ xs,
      (∃ j, SerializePyObject.serialize ⟨x, d, o, dc, rc + 1⟩ = .ok j) ∨
      SerializePyObject.serialize ⟨x, d, o, dc, rc + 1⟩ =
        .error .recursionLimitReached) :
    (∃ js, serializeSeqElems d o dc rc xs = .ok js) ∨
      serializeSeqElems d o dc rc xs = .error .recursionLimitReached := by
  induction xs with
  | nil => exact Or.inl ⟨[], seqElems_nil d o dc rc⟩
  | cons x xs ih =>
    rcases h x (List.mem_cons_self _ _) with ⟨j, hj⟩ | hj
    · rcases ih (fun y hy => h y (List.mem_cons_of_mem _ hy)) with ⟨js, hjs⟩ | hjs
      · exact Or.inl ⟨j :: js, by rw [seqElems_cons, hj, hjs]⟩
      · exact Or.inr (by rw [seqElems_cons, hj, hjs])
    · exact Or.inr (by rw [seqElems_cons, hj])

theorem mapEntries_fails_of_mem (d : Option (PyValue → HookResult)) (o : Nat)
    (dc rc : Fin 256) (es : List (PyValue × PyValue)) (kv : PyValue × PyValue)
    (hkv : kv ∈ es)
    (hfail : ∀ j, ¬ SerializePyObject.serialize ⟨kv.2, d, o, dc, rc + 1⟩ = .ok j) :
    ∀ kvs, ¬ serializeMapEntries d o dc rc es = .ok kvs := by
  induction es with
  | nil => cases hkv
  | cons p ps ih =>
    obtain ⟨k, v⟩ := p
    intro kvs hok
    rw [mapEntries_cons] at hok
    by_cases hkey : ¬ ob_type k = TypeTag.strT
    · rw [if_pos hkey] at hok; exact absurd hok (by simp)
    · rw [if_neg hkey] at hok
      cases hru : read_utf8_from_str k with
      | none => rw [hru] at hok; exact absurd hok (by simp)
      | some ks =>
        rw [hru] at hok
        rcases List.mem_cons.mp hkv with rfl | hkv'
        · cases hs : SerializePyObject.serialize ⟨v, d, o, dc, rc + 1⟩ with
          | error e => rw [hs] at hok; exact absurd hok (by simp)
          | ok j => exact hfail j hs
        · cases hs : SerializePyObject.serialize ⟨v, d, o, dc, rc + 1⟩ with
          | error e => rw [hs] at hok; exact absurd hok (by simp)
          | ok j =>
            rw [hs] at hok
            cases hr : serializeMapEntries d o dc rc ps with
            | error e => rw [hr] at hok; exact absurd hok (by simp)
            | ok kvs' => exact ih hkv' kvs' hr

theorem mapEntries_err_kind (d : Option (PyValue → HookResult)) (o : Nat)
    (dc rc : Fin 256) (es : List (PyValue × PyValue))
    (hkeys : ∀ kv ∈ es, ∃ s, kv.1 = PyValue.str true s)
    (h : ∀ kv ∈ es,
      (∃ j, SerializePyObject.serialize ⟨kv.2, d, o, dc, rc + 1⟩ = .ok j) ∨
      SerializePyObject.serialize ⟨kv.2, d, o, dc, rc + 1⟩ =
        .error .recursionLimitReached) :
    (∃ kvs, serializeMapEntries d o dc rc es = .ok kvs) ∨
      serializeMapEntries d o dc rc es = .error .recursionLimitReached := by
  induction es with
  | nil => exact Or.inl ⟨[], mapEntries_nil d o dc rc⟩
  | cons p ps ih =>
    obtain ⟨k, v⟩ := p
    obtain ⟨s, hs⟩ := hkeys (k, v) (List.mem_cons_self _ _)
    subst hs
    rcases h (PyValue.str true s, v) (List.mem_cons_self _ _) with ⟨j, hj⟩ | hj
    · rcases ih (fun kv hkv => hkeys kv (List.mem_cons_of_mem _ hkv))
        (fun kv hkv => h kv (List.mem_cons_of_mem _ hkv)) with ⟨kvs, hkvs⟩ | hkvs
      · refine Or.inl ⟨(s, j) :: kvs, ?_⟩
        rw [mapEntries_cons, if_neg (by simp [ob_type]),
          show read_utf8_from_str (PyValue.str true s) = some s from rfl, hj, hkvs]
      · refine Or.inr ?_
        rw [mapEntries_cons, if_neg (by simp [ob_type]),
          show read_utf8_from_str (PyValue.str true s) = some s from rfl, hj, hkvs]
    · refine Or.inr ?_
      rw [mapEntries_cons, if_neg (by simp [ob_type]),
        show read_utf8_from_str (PyValue.str true s) = some s from rfl, hj]

theorem containerOnly_ok (n : Nat) :
    ∀ v : PyValue, sizeOf v ≤ n → containerOnly v = true →
    ∀ (d : Option (PyValue → HookResult)) (o : Nat) (dc rc : Fin 256),
    containerDepth v + rc.val ≤ 255 →
    ∃ j, SerializePyObject.serialize ⟨v, d, o, dc, rc⟩ = .ok j := by
  induction n with
  | zero =>
    intro v hsz
    exfalso
    cases v <;> simp at hsz
  | succ n ih =>
    intro v hsz hco d o dc rc hdepth
    cases v with
    | list xs =>
      have hszxs : sizeOf xs ≤ n := by
        have hs : sizeOf (PyValue.list xs) = 1 + sizeOf xs := by simp
        omega
      rw [containerDepth_list] at hdepth
      have hrcv : rc.val < 255 := by omega
      have hrc : ¬ rc = RECURSION_LIMIT := ne_limit_of_val_lt hrcv
      have hco' : containerOnlyList xs = true := by
        simpa [containerOnly] using hco
      obtain ⟨js, hjs⟩ := seqElems_all_ok d o dc rc xs (fun x hx => by
        apply ih x (le_of_lt (lt_of_lt_of_le (List.sizeOf_lt_of_mem hx) hszxs))
          (containerOnlyList_mem hco' hx) d o dc (rc + 1)
        rw [fin256_add_one_val rc hrcv]
        have h1 := containerDepthList_le_of_mem hx
        omega)
      exact ⟨.arr js, by rw [serialize_list_eq, if_neg hrc, hjs]⟩
    | dict es =>
      have hszes : sizeOf es ≤ n := by
        have hs : sizeOf (PyValue.dict es) = 1 + sizeOf es := by simp
        omega
      rw [containerDepth_dict] at hdepth
      have hrcv : rc.val < 255 := by omega
      have hrc : ¬ rc = RECURSION_LIMIT := ne_limit_of_val_lt hrcv
      have hco' : containerOnlyEntries es = true := by
        simpa [containerOnly] using hco
      obtain ⟨kvs, hkvs, -⟩ := mapEntries_all_ok d o dc rc es (fun kv hkv => by
        obtain ⟨hkey, hcv⟩ := containerOnlyEntries_mem hco' hkv
        refine ⟨hkey, ?_⟩
        have hkvsz : sizeOf kv.2 ≤ n := by
          have h1 := List.sizeOf_lt_of_mem hkv
          obtain ⟨k, v⟩ := kv
          simp at h1 ⊢
          omega
        apply ih kv.2 hkvsz hcv d o dc (rc + 1)
        rw [fin256_add_one_val rc hrcv]
        have h1 := containerDepthEntries_le_of_mem hkv
        omega)
      exact ⟨.obj kvs, by rw [serialize_dict_eq, if_neg hrc, hkvs]⟩
    | _ => exact absurd hco (by simp [containerOnly])

theorem containerOnly_deep_fails (n : Nat) :
    ∀ v : PyValue, sizeOf v ≤ n → containerOnly v = true →
    ∀ (d : Option (PyValue → HookResult)) (o : Nat) (dc rc : Fin 256),
    255 < containerDepth v + rc.val →
    ∀ j, ¬ SerializePyObject.serialize ⟨v, d, o, dc, rc⟩ = .ok j := by
  induction n with
  | zero =>
    intro v hsz
    exfalso
    cases v <;> simp at hsz
  | succ n ih =>
    intro v hsz hco d o dc rc hdeep
    cases v with
    | list xs =>
      by_cases hrc : rc = RECURSION_LIMIT
      · intro j hok
        rw [serialize_list_eq, if_pos hrc] at hok
        exact absurd hok (by simp)
      · have hrcv : rc.val < 255 := val_lt_of_ne_limit hrc
        rw [containerDepth_list] at hdeep
        have hco' : containerOnlyList xs = true := by
          simpa [containerOnly] using hco
        have hpos : 0 < containerDepthList xs := by omega
        obtain ⟨x, hx, hxd⟩ := containerDepthList_attained hpos
        have hszxs : sizeOf xs ≤ n := by
          have hs : sizeOf (PyValue.list xs) = 1 + sizeOf xs := by simp
          omega
        have hxfail := ih x
          (le_of_lt (lt_of_lt_of_le (List.sizeOf_lt_of_mem hx) hszxs))
          (containerOnlyList_mem hco' hx) d o dc (rc + 1)
          (by rw [fin256_add_one_val rc hrcv]; omega)
        intro j hok
        rw [serialize_list_eq, if_neg hrc] at hok
        cases hse : serializeSeqElems d o dc rc xs with
        | error e => rw [hse] at hok; exact absurd hok (by simp)
        | ok js => exact seqElems_fails_of_mem d o dc rc xs x hx hxfail js hse
    | dict es =>
      by_cases hrc : rc = RECURSION_LIMIT
      · intro j hok
        rw [serialize_dict_eq, if_pos hrc] at hok
        exact absurd hok (by simp)
      · have hrcv : rc.val < 255 := val_lt_of_ne_limit hrc
        rw [containerDepth_dict] at hdeep
        have hco' : containerOnlyEntries es = true := by
          simpa [containerOnly] using hco
        have hpos : 0 < containerDepthEntries es := by omega
        obtain ⟨kv, hkv, hkvd⟩ := containerDepthEntries_attained hpos
        have hkvsz : sizeOf kv.2 ≤ n := by
          have h1 := List.sizeOf_lt_of_mem hkv
          have hs : sizeOf (PyValue.dict es) = 1 + sizeOf es := by simp
          obtain ⟨k, v⟩ := kv
          simp at h1 ⊢
          omega
        have hkvfail := ih kv.2 hkvsz (containerOnlyEntries_mem hco' hkv).2
          d o dc (rc + 1) (by rw [fin256_add_one_val rc hrcv]; omega)
        intro j hok
        rw [serialize_dict_eq, if_neg hrc] at hok
        cases hse : serializeMapEntries d o dc rc es with
        | error e => rw [hse] at hok; exact absurd hok (by simp)
        | ok kvs =>
          exact mapEntries_fails_of_mem d o dc rc es kv hkv hkvfail kvs hse
    | _ => exact absurd hco (by simp [containerOnly])

theorem containerOnly_err_kind (n : Nat) :
    ∀ v : PyValue, sizeOf v ≤ n → containerOnly v = true →
    ∀ (d : Option (PyValue → HookResult)) (o : Nat) (dc rc : Fin 256),
    (∃ j, SerializePyObject.serialize ⟨v, d, o, dc, rc⟩ = .ok j) ∨
      SerializePyObject.serialize ⟨v, d, o, dc, rc⟩ =
        .error .recursionLimitReached := by
  induction n with
  | zero =>
    intro v hsz
    exfalso
    cases v <;> simp at hsz
  | succ n ih =>
    intro v hsz hco d o dc rc
    cases v with
    | list xs =>
      by_cases hrc : rc = RECURSION_LIMIT
      · exact Or.inr (by rw [serialize_list_eq, if_pos hrc])
      · have hszxs : sizeOf xs ≤ n := by
          have hs : sizeOf (PyValue.list xs) = 1 + sizeOf xs := by simp
          omega
        have hco' : containerOnlyList xs = true := by
          simpa [containerOnly] using hco
        rcases seqElems_err_kind d o dc rc xs (fun x hx =>
          ih x (le_of_lt (lt_of_lt_of_le (List.sizeOf_lt_of_mem hx) hszxs))
            (containerOnlyList_mem hco' hx) d o dc (rc + 1)) with ⟨js, hjs⟩ | hjs
        · exact Or.inl ⟨.arr js, by rw [serialize_list_eq, if_neg hrc, hjs]⟩
        · exact Or.inr (by rw [serialize_list_eq, if_neg hrc, hjs])
    | dict es =>
      by_cases hrc : rc = RECURSION_LIMIT
      · exact Or.inr (by rw [serialize_dict_eq, if_pos hrc])
      · have hszes : sizeOf es ≤ n := by
          have hs : sizeOf (PyValue.dict es) = 1 + sizeOf es := by simp
          omega
        have hco' : containerOnlyEntries es = true := by
          simpa [containerOnly] using hco
        rcases mapEntries_err_kind d o dc rc es
          (fun kv hkv => (containerOnlyEntries_mem hco' hkv).1)
          (fun kv hkv => by
            have hkvsz : sizeOf kv.2 ≤ n := by
              have h1 := List.sizeOf_lt_of_mem hkv
              obtain ⟨k, v⟩ := kv
              simp at h1 ⊢
              omega
            exact ih kv.2 hkvsz (containerOnlyEntries_mem hco' hkv).2
              d o dc (rc + 1)) with ⟨kvs, hkvs⟩ | hkvs
        · exact Or.inl ⟨.obj kvs, by rw [serialize_dict_eq, if_neg hrc, hkvs]⟩
        · exact Or.inr (by rw [serialize_dict_eq, if_neg hrc, hkvs])
    | _ => exact absurd hco (by simp [containerOnly])

/-- C2: a value built only of lists/maps nested to structural depth at
most 255 encodes successfully from the entry point (the root starts at
depth 0 and each contained value is encoded at the parent's depth plus
one), while any such value of depth 256 or more fails with the
recursion-limit error. -/
theorem nesting_boundary (v : PyValue) (d : Option (PyValue → HookResult))
    (o : Nat) (hco : containerOnly v = true) :
    (containerDepth v ≤ 255 → ∃ j, serialize v d o = .ok j) ∧
    (256 ≤ containerDepth v →
      serialize v d o = .error RECURSION_LIMIT_REACHED) := by
  have h0 : ((0 : Fin 256)).val = 0 := rfl
  constructor
  · intro hdep
    obtain ⟨j, hj⟩ := containerOnly_ok (sizeOf v) v le_rfl hco d o 0 0
      (by rw [h0]; omega)
    exact ⟨j, by simp [serialize, hj]⟩
  · intro hdep
    have hfail := containerOnly_deep_fails (sizeOf v) v le_rfl hco d o 0 0
      (by rw [h0]; omega)
    rcases containerOnly_err_kind (sizeOf v) v le_rfl hco d o 0 0 with
      ⟨j, hj⟩ | hj
    · exact absurd hj (hfail j)
    · simp [serialize, hj, errMsg]

/-- A pure list chain: `nestList n` is `n + 1` nested lists. -/
def nestList : Nat → PyValue
  | 0 => PyValue.list []
  | n + 1 => PyValue.list [nestList n]

set_option maxRecDepth 100000 in
/-- C2 witness: 255 nested lists encode; 256 nested lists fail with the
recursion-limit error. -/
theorem nesting_boundary_witness :
    (∃ j, serialize (nestList 254) Option.none 0 = .ok j) ∧
    serialize (nestList 255) Option.none 0 = .error RECURSION_LIMIT_REACHED :=
  ⟨(nesting_boundary (nestList 254) Option.none 0 (by decide)).1 (by decide),
    (nesting_boundary (nestList 255) Option.none 0 (by decide)).2 (by decide)⟩

end Orjson
